import Mathlib

/-!
Shallow embedding of the ab-masonry image gallery widget.

The repository ships two generations of the layout code:
the current modular pipeline (classes ABMasonry, ABMasonryColumn,
ABMasonryElement, ABMasonryOverlay, ABMasonryRenderer) and a legacy
single-class version of ABMasonry.  Both are embedded below where the
verified claims mention them.

JavaScript numbers are modelled as an inductive wrapper over the exact
rationals, keeping the distinguished values Infinity, negative Infinity
and NaN that arise from division by zero.  Rounding of the exact value
replaces IEEE-754 rounding of each intermediate operation; the signed
zero of IEEE-754 is not modelled (the pipeline never produces a negative
zero on the paths the claims mention).

DOM structure that the claims do not mention (CSS classes, event
wiring, the physical tree of div elements) is elided; each class keeps
exactly the fields the claims observe.
-/

/-- Model of a JavaScript number: an exact rational, or one of the
distinguished values produced by division by zero. -/
inductive JSNum where
  | fin (q : ℚ)
  | posInf
  | negInf
  | nan
  deriving DecidableEq, Repr

/-- JavaScript addition on `JSNum` (NaN is absorbing, opposite
infinities give NaN, a single infinity is absorbing over finite values). -/
def jsAdd : JSNum → JSNum → JSNum
  | .nan, _ => .nan
  | _, .nan => .nan
  | .posInf, .negInf => .nan
  | .negInf, .posInf => .nan
  | .posInf, _ => .posInf
  | _, .posInf => .posInf
  | .negInf, _ => .negInf
  | _, .negInf => .negInf
  | .fin a, .fin b => .fin (a + b)

/-- JavaScript multiplication on `JSNum` (infinity times zero is NaN). -/
def jsMul : JSNum → JSNum → JSNum
  | .nan, _ => .nan
  | _, .nan => .nan
  | .fin a, .fin b => .fin (a * b)
  | .posInf, .fin b => if 0 < b then .posInf else if b < 0 then .negInf else .nan
  | .fin a, .posInf => if 0 < a then .posInf else if a < 0 then .negInf else .nan
  | .negInf, .fin b => if 0 < b then .negInf else if b < 0 then .posInf else .nan
  | .fin a, .negInf => if 0 < a then .negInf else if a < 0 then .posInf else .nan
  | .posInf, .posInf => .posInf
  | .posInf, .negInf => .negInf
  | .negInf, .posInf => .negInf
  | .negInf, .negInf => .posInf

/-- JavaScript division on `JSNum`: a nonzero finite value divided by
zero yields a signed infinity, `0 / 0` yields NaN. -/
def jsDiv : JSNum → JSNum → JSNum
  | .nan, _ => .nan
  | _, .nan => .nan
  | .fin a, .fin b =>
      if b = 0 then (if 0 < a then .posInf else if a < 0 then .negInf else .nan)
      else .fin (a / b)
  | .fin _, .posInf => .fin 0
  | .fin _, .negInf => .fin 0
  | .posInf, .fin b => if 0 ≤ b then .posInf else .negInf
  | .negInf, .fin b => if 0 ≤ b then .negInf else .posInf
  | .posInf, _ => .nan
  | .negInf, _ => .nan

/-- JavaScript strict comparison on `JSNum`: any comparison with NaN is
false. -/
def jsLt : JSNum → JSNum → Bool
  | .nan, _ => false
  | _, .nan => false
  | .negInf, .negInf => false
  | .negInf, _ => true
  | _, .negInf => false
  | .posInf, _ => false
  | .fin _, .posInf => true
  | .fin a, .fin b => decide (a < b)

/-- JavaScript `Math.round` on a finite value: half-way cases round up
(toward positive infinity). -/
def jsRound (q : ℚ) : ℤ := ⌊q + 1 / 2⌋

/-- JavaScript `Math.round` lifted to `JSNum`: infinities and NaN are
returned unchanged. -/
def jsRoundNum : JSNum → JSNum
  | .fin q => .fin (jsRound q)
  | .posInf => .posInf
  | .negInf => .negInf
  | .nan => .nan

/-- The axis argument of the proportional sizing functions, written
as a union of the one-character string literals w and h in the source. -/
inductive ABAxis where
  | w
  | h
  deriving DecidableEq, Repr

/-- Model of the JavaScript `String.prototype.startsWith`: the argument
is a prefix of the receiver.  (`String.startsWith` of the Lean library
has the same meaning but does not reduce inside the kernel, so the check
is phrased on the underlying character lists.) -/
def strStartsWith (s p : String) : Bool := p.data.isPrefixOf s.data

/-- Embedding of `ABMasonryElement.calculateProportionalSize` (current
pipeline): `Math.round((naturalWidth / naturalHeight) * target)` on the
width axis and `Math.round((naturalHeight / naturalWidth) * target)` on
the height axis, with no guard against zero dimensions. -/
def calculateProportionalSize
    (naturalWidth naturalHeight target : JSNum) (direction : ABAxis) : JSNum :=
  match direction with
  | .w => jsRoundNum (jsMul (jsDiv naturalWidth naturalHeight) target)
  | .h => jsRoundNum (jsMul (jsDiv naturalHeight naturalWidth) target)

/-- Embedding of the legacy `ABMasonry.getProportionSize`: returns 0 when
either dimension is 0; on the width axis it returns `base` unchanged, on
the height axis `Math.round(base / (originalWidth / originalHeight))`. -/
def getProportionSize (originalWidth originalHeight base : ℚ) (axis : ABAxis) : ℚ :=
  if originalWidth = 0 ∨ originalHeight = 0 then 0
  else
    match axis with
    | .w => base
    | .h => (jsRound (base / (originalWidth / originalHeight)) : ℚ)

/-- Embedding of the item descriptor `ABMasonryItem` of the current
pipeline: `{ img: string, title?: string, caption?: string, link?: string }`.
`Option` models an absent (`undefined`) field. -/
structure ABMasonryItem where
  img : String
  title : Option String := none
  caption : Option String := none
  link : Option String := none
  deriving DecidableEq, Repr

/-- Embedding of `ABMasonryElement.validateImgUrl`: the url must start
with `/` or match the anchored regular expression `^https?:\/\/`
(that is, start with `http://` or `https://`). -/
def validateImgUrl (url : String) : Bool :=
  strStartsWith url "/" || strStartsWith url "http://" || strStartsWith url "https://"

/-- Embedding of `ABMasonryElement`: the original item paired with the
computed display height.  The DOM container (image plus optional caption
overlay) and the click listener are presentation only and are elided. -/
structure ABMasonryElement where
  item : ABMasonryItem
  height : JSNum
  deriving DecidableEq, Repr

/-- The failure modes of `ABMasonryElement.create`: the synchronous
validation failure (`Invalid ABMasonryItem: ...`) and the asynchronous
image load failure (`Image failed to load: <url>`). -/
inductive ABMasonryError where
  | invalidItem
  | loadFailure (url : String)
  deriving DecidableEq, Repr

/-- Embedding of `ABMasonryElement.create`.  The browser image loader is
the oracle `net`: `some (naturalWidth, naturalHeight)` when the image
resource resolves, `none` when it fails.  The url is validated first;
the oracle is consulted only afterwards, and on success the height is
computed by `calculateProportionalSize` on the height axis. -/
def elementCreate (net : ABMasonryItem → Option (ℕ × ℕ)) (width : JSNum)
    (item : ABMasonryItem) : Except ABMasonryError ABMasonryElement :=
  if validateImgUrl item.img then
    match net item with
    | some (nw, nh) =>
        .ok { item := item
              height := calculateProportionalSize (.fin nw) (.fin nh) width .h }
    | none => .error (.loadFailure item.img)
  else .error .invalidItem

/-- Embedding of `ABMasonryColumn`: the ordered elements appended to the
column and the cumulative height.  The DOM container is elided. -/
structure ABMasonryColumn where
  elements : List ABMasonryElement
  height : JSNum
  deriving DecidableEq, Repr

/-- Embedding of the `ABMasonryColumn` constructor: empty column of
height 0. -/
def emptyColumn : ABMasonryColumn := { elements := [], height := .fin 0 }

/-- Embedding of `ABMasonryColumn.appendElement`: append the element and
add its height to the cumulative height. -/
def appendElement (c : ABMasonryColumn) (e : ABMasonryElement) : ABMasonryColumn :=
  { elements := c.elements ++ [e], height := jsAdd c.height e.height }

/-- Embedding of `ABMasonry.createColumns`: the given number of fresh
empty columns. -/
def createColumns (columns : ℕ) : List ABMasonryColumn :=
  List.replicate columns emptyColumn

/-- The loop of `ABMasonry.getShortestColumn` over the explicit list of
loop indices: `shortest` is replaced by index `i` exactly when the
height at `i` is strictly below the height at `shortest`. -/
def getShortestColumnGo (hs : List JSNum) (shortest : ℕ) : List ℕ → ℕ
  | [] => shortest
  | i :: rest =>
      getShortestColumnGo hs
        (if jsLt (hs.getD i (.fin 0)) (hs.getD shortest (.fin 0)) then i else shortest)
        rest

/-- Embedding of `ABMasonry.getShortestColumn`: start from index 0 and
scan indices `1 .. length - 1`, keeping the first index of strictly
minimal height. -/
def getShortestColumn (hs : List JSNum) : ℕ :=
  getShortestColumnGo hs 0 (List.range' 1 (hs.length - 1))

/-- The effect of `this.columns[k].appendElement(e)` on the list of
columns.  An out-of-range index leaves the list unchanged: in the source
that access throws and the surrounding `try/catch` skips the item. -/
def appendAt : List ABMasonryColumn → ℕ → ABMasonryElement → List ABMasonryColumn
  | [], _, _ => []
  | c :: cs, 0, e => appendElement c e :: cs
  | c :: cs, k + 1, e => c :: appendAt cs k e

/-- Embedding of the column width computed inside
`ABMasonry.distributeItems`:
`(container.clientWidth > 0) ? clientWidth / columns : 1024 / columns`. -/
def columnWidthOf (clientWidth : ℚ) (columns : ℕ) : JSNum :=
  if 0 < clientWidth then jsDiv (.fin clientWidth) (.fin (columns : ℚ))
  else jsDiv (.fin 1024) (.fin (columns : ℚ))

/-- One iteration of the `for ... of` loop of `ABMasonry.distributeItems`,
instrumented with a log of the elements in placement order.  A created
element is appended to the currently shortest column; a failed item is
skipped (`console.warn`) and the state is unchanged. -/
def distributeStep (net : ABMasonryItem → Option (ℕ × ℕ)) (clientWidth : ℚ)
    (columns : ℕ) (state : List ABMasonryColumn × List ABMasonryElement)
    (item : ABMasonryItem) : List ABMasonryColumn × List ABMasonryElement :=
  match elementCreate net (columnWidthOf clientWidth columns) item with
  | .ok e =>
      (appendAt state.1 (getShortestColumn (state.1.map (·.height))) e,
       state.2 ++ [e])
  | .error _ => state

/-- Embedding of `ABMasonry.distributeItems`: the loop awaits each
item in turn, so it is a left fold over the items in descriptor order.
The second component is the ghost log of placements in the order they
happen. -/
def distributeItems (net : ABMasonryItem → Option (ℕ × ℕ)) (clientWidth : ℚ)
    (columns : ℕ) (items : List ABMasonryItem) (cols : List ABMasonryColumn) :
    List ABMasonryColumn × List ABMasonryElement :=
  items.foldl (distributeStep net clientWidth columns) (cols, [])

/-- The total accumulated height over a list of columns. -/
def sumHeights (cols : List ABMasonryColumn) : JSNum :=
  (cols.map (·.height)).foldr jsAdd (.fin 0)

/-- The total number of elements placed across a list of columns. -/
def totalElements (cols : List ABMasonryColumn) : ℕ :=
  (cols.map (·.elements.length)).sum

/-- A node of the overlay modal content: the image, a caption wrapped in
an anchor, or a plain-text caption.  The fields record exactly the
attributes the source sets (`src`/`alt` on the image; `href`, text,
`target`, `rel` on the anchor). -/
inductive ModalNode where
  | image (src alt : String)
  | captionLink (href text target rel : String)
  | captionText (text : String)
  deriving DecidableEq, Repr

/-- Embedding of `ABMasonryOverlay`: the ordered content of the modal
figure, the visibility flag (`ab-masonry__overlay--visible` class) and
the z-index applied at construction. -/
structure ABMasonryOverlay where
  modal : List ModalNode
  visible : Bool
  zIndex : ℕ
  deriving DecidableEq, Repr

/-- Embedding of the `ABMasonryOverlay` constructor: empty modal, hidden,
with the given z-index (default 2147483647). -/
def overlayInit (zIndex : ℕ := 2147483647) : ABMasonryOverlay :=
  { modal := [], visible := false, zIndex := zIndex }

/-- Embedding of `ABMasonryOverlay.validUrl`, parametrised by the oracle
`parses` standing for the host `URL` constructor (`parses s = true` iff
`new URL(s)` succeeds, that is, iff `s` is a syntactically valid absolute
URL).  `!!value && Boolean(new URL(value))` is false for an absent or
empty value without consulting the constructor, and the `try/catch`
turns a parse failure into `false`. -/
def validUrl (parses : String → Bool) : Option String → Bool
  | none => false
  | some s => s ≠ "" && parses s

/-- Embedding of `ABMasonryOverlay.resetOverlay`: removes all modal
content. -/
def resetOverlay (o : ABMasonryOverlay) : ABMasonryOverlay :=
  { o with modal := [] }

/-- Embedding of `ABMasonryOverlay.setImage`: appends an image node with
the given source and alt text to the modal. -/
def setImage (o : ABMasonryOverlay) (url title : String) : ABMasonryOverlay :=
  { o with modal := o.modal ++ [.image url title] }

/-- Embedding of `ABMasonryOverlay.setCaption`: for a truthy text,
appends the caption node — an anchor with `target = _blank` and
`rel = noopener noreferrer` when `validUrl` accepts the link, plain text
otherwise. -/
def setCaption (parses : String → Bool) (o : ABMasonryOverlay)
    (text : String) (link : Option String) : ABMasonryOverlay :=
  if text ≠ "" then
    if validUrl parses link then
      { o with modal := o.modal ++ [.captionLink (link.getD "") text "_blank" "noopener noreferrer"] }
    else
      { o with modal := o.modal ++ [.captionText text] }
  else o

/-- Embedding of `ABMasonryOverlay.updateModal`: always appends the
image, with alt text `item.title ?? item.caption ?? "ab-masonry"` (nullish coalescing); then
appends the caption when `item.caption` is defined and non-empty. -/
def updateModal (parses : String → Bool) (o : ABMasonryOverlay)
    (item : ABMasonryItem) : ABMasonryOverlay :=
  let o1 := setImage o item.img (item.title.getD (item.caption.getD "ab-masonry"))
  match item.caption with
  | some c => if c ≠ "" then setCaption parses o1 c item.link else o1
  | none => o1

/-- Embedding of `ABMasonryOverlay.show` (named `showOverlay` because
`show` is a reserved word in Lean): updates the modal content and adds
the visibility class. -/
def showOverlay (parses : String → Bool) (o : ABMasonryOverlay)
    (item : ABMasonryItem) : ABMasonryOverlay :=
  { updateModal parses o item with visible := true }

/-- Embedding of `ABMasonryOverlay.hide` (named `hideOverlay` for
symmetry with `showOverlay`): clears the modal content and removes the
visibility class. -/
def hideOverlay (o : ABMasonryOverlay) : ABMasonryOverlay :=
  { resetOverlay o with visible := false }

/-- Insertion of an item into a list sorted by completion time (helper
for the completion-order placement sequence the specification claims). -/
def insertByTime (time : ABMasonryItem → ℕ) (x : ABMasonryItem) :
    List ABMasonryItem → List ABMasonryItem
  | [] => [x]
  | y :: ys => if time x ≤ time y then x :: y :: ys else y :: insertByTime time x ys

/-- Modelled from the spec: "Ordering guarantee: none across items —
column assignment order follows completion order, not descriptor order".
The placement order the specification describes: the successfully
created items, ordered by the completion time of their image
resolutions (`time` is the completion-time oracle).  This definition
follows the words of the specification, not the source, and exists to be
compared against the placement log of `distributeItems`. -/
def specCompletionOrderPlacements (time : ABMasonryItem → ℕ)
    (net : ABMasonryItem → Option (ℕ × ℕ)) (width : JSNum)
    (items : List ABMasonryItem) : List ABMasonryItem :=
  (items.filter (fun it => (elementCreate net width it).toOption.isSome)).foldr
    (insertByTime time) []

theorem jsAdd_comm (a b : JSNum) : jsAdd a b = jsAdd b a := by
  cases a <;> cases b <;> simp [jsAdd, add_comm]

theorem jsAdd_assoc (a b c : JSNum) : jsAdd (jsAdd a b) c = jsAdd a (jsAdd b c) := by
  cases a <;> cases b <;> cases c <;> simp [jsAdd, add_assoc]

theorem jsAdd_zero_left (a : JSNum) : jsAdd (.fin 0) a = a := by
  cases a <;> simp [jsAdd]

theorem jsAdd_zero_right (a : JSNum) : jsAdd a (.fin 0) = a := by
  cases a <;> simp [jsAdd]

theorem jsLt_fin (a b : ℚ) : jsLt (.fin a) (.fin b) = decide (a < b) := rfl

theorem getD_map_fin (qs : List ℚ) (i : ℕ) :
    (qs.map JSNum.fin).getD i (.fin 0) = .fin (qs.getD i 0) := by
  induction qs generalizing i with
  | nil => simp [List.getD]
  | cons q qs ih =>
      cases i with
      | zero => simp
      | succ n => simp [ih n]

theorem getShortestColumnGo_mem_bound (hs : List JSNum) :
    ∀ (idxs : List ℕ) (s : ℕ), s < hs.length → (∀ i ∈ idxs, i < hs.length) →
      getShortestColumnGo hs s idxs < hs.length := by
  intro idxs
  induction idxs with
  | nil => intro s hs' _; simpa [getShortestColumnGo] using hs'
  | cons i rest ih =>
      intro s hsl hmem
      simp only [getShortestColumnGo]
      split
      · exact ih i (hmem i (by simp)) (fun j hj => hmem j (by simp [hj]))
      · exact ih s hsl (fun j hj => hmem j (by simp [hj]))

theorem getShortestColumn_lt (hs : List JSNum) (h : 0 < hs.length) :
    getShortestColumn hs < hs.length := by
  refine getShortestColumnGo_mem_bound hs _ 0 h ?_
  intro i hi
  have := List.mem_range'_1.mp hi
  omega

theorem getShortestColumnGo_spec (qs : List ℚ) :
    ∀ (count i s : ℕ), s < i → i + count = qs.length →
      (∀ j, j < i → qs.getD s 0 ≤ qs.getD j 0) →
      (∀ j, j < s → qs.getD s 0 < qs.getD j 0) →
      getShortestColumnGo (qs.map JSNum.fin) s (List.range' i count) < qs.length ∧
      (∀ j, j < qs.length →
        qs.getD (getShortestColumnGo (qs.map JSNum.fin) s (List.range' i count)) 0
          ≤ qs.getD j 0) ∧
      (∀ j, j < getShortestColumnGo (qs.map JSNum.fin) s (List.range' i count) →
        qs.getD (getShortestColumnGo (qs.map JSNum.fin) s (List.range' i count)) 0
          < qs.getD j 0) := by
  intro count
  induction count with
  | zero =>
      intro i s hsi hlen hle hstrict
      simp only [List.range', getShortestColumnGo]
      exact ⟨by omega, fun j hj => hle j (by omega), hstrict⟩
  | succ n ih =>
      intro i s hsi hlen hle hstrict
      rw [List.range'_succ]
      simp only [getShortestColumnGo, getD_map_fin, jsLt_fin]
      by_cases hlt : qs.getD i 0 < qs.getD s 0
      · simp only [hlt]
        refine ih (i + 1) i (by omega) (by omega) ?_ ?_
        · intro j hj
          rcases Nat.lt_succ_iff_lt_or_eq.mp hj with hj' | hj'
          · exact le_of_lt (lt_of_lt_of_le hlt (hle j hj'))
          · subst hj'; exact le_refl _
        · intro j hj
          exact lt_of_lt_of_le hlt (hle j hj)
      · simp only [hlt]
        refine ih (i + 1) s (by omega) (by omega) ?_ hstrict
        intro j hj
        rcases Nat.lt_succ_iff_lt_or_eq.mp hj with hj' | hj'
        · exact hle j hj'
        · subst hj'; exact le_of_not_lt hlt

theorem getShortestColumn_spec (qs : List ℚ) (h : 0 < qs.length) :
    getShortestColumn (qs.map JSNum.fin) < qs.length ∧
    (∀ j, j < qs.length →
      qs.getD (getShortestColumn (qs.map JSNum.fin)) 0 ≤ qs.getD j 0) ∧
    (∀ j, j < getShortestColumn (qs.map JSNum.fin) →
      qs.getD (getShortestColumn (qs.map JSNum.fin)) 0 < qs.getD j 0) := by
  have hlen : (qs.map JSNum.fin).length = qs.length := List.length_map _ _
  have := getShortestColumnGo_spec qs (qs.length - 1) 1 0 (by omega) (by omega)
    (fun j hj => by
      have : j = 0 := by omega
      subst this; exact le_refl _)
    (fun j hj => by omega)
  simpa [getShortestColumn, hlen] using this

theorem appendAt_length (cols : List ABMasonryColumn) (k : ℕ) (e : ABMasonryElement) :
    (appendAt cols k e).length = cols.length := by
  induction cols generalizing k with
  | nil => simp [appendAt]
  | cons c cs ih =>
      cases k with
      | zero => simp [appendAt]
      | succ n => simp [appendAt, ih]

theorem sumHeights_cons (c : ABMasonryColumn) (cs : List ABMasonryColumn) :
    sumHeights (c :: cs) = jsAdd c.height (sumHeights cs) := rfl

theorem sumHeights_appendAt (cols : List ABMasonryColumn) (k : ℕ)
    (e : ABMasonryElement) (hk : k < cols.length) :
    sumHeights (appendAt cols k e) = jsAdd (sumHeights cols) e.height := by
  induction cols generalizing k with
  | nil => simp at hk
  | cons c cs ih =>
      cases k with
      | zero =>
          simp only [appendAt, sumHeights_cons, appendElement]
          rw [jsAdd_assoc, jsAdd_assoc, jsAdd_comm e.height (sumHeights cs)]
      | succ n =>
          simp only [appendAt, sumHeights_cons]
          rw [ih n (by simpa using hk), ← jsAdd_assoc]

theorem totalElements_cons (c : ABMasonryColumn) (cs : List ABMasonryColumn) :
    totalElements (c :: cs) = c.elements.length + totalElements cs := rfl

theorem totalElements_appendAt (cols : List ABMasonryColumn) (k : ℕ)
    (e : ABMasonryElement) (hk : k < cols.length) :
    totalElements (appendAt cols k e) = totalElements cols + 1 := by
  induction cols generalizing k with
  | nil => simp at hk
  | cons c cs ih =>
      cases k with
      | zero =>
          simp only [appendAt, totalElements_cons, appendElement]
          simp
          omega
      | succ n =>
          simp only [appendAt, totalElements_cons]
          rw [ih n (by simpa using hk)]
          omega

theorem sumHeights_createColumns (k : ℕ) : sumHeights (createColumns k) = .fin 0 := by
  induction k with
  | zero => rfl
  | succ n ih =>
      simp only [createColumns, List.replicate_succ] at *
      rw [sumHeights_cons, ih]
      simp [emptyColumn, jsAdd]

theorem totalElements_createColumns (k : ℕ) : totalElements (createColumns k) = 0 := by
  induction k with
  | zero => rfl
  | succ n ih =>
      simp only [createColumns, List.replicate_succ] at *
      rw [totalElements_cons, ih]
      rfl

/-- The heights of the elements successfully created from a list of
items, in descriptor order. -/
def successHeights (net : ABMasonryItem → Option (ℕ × ℕ)) (width : JSNum)
    (items : List ABMasonryItem) : List JSNum :=
  items.filterMap (fun it => ((elementCreate net width it).toOption).map (·.height))

/-- The items whose element creation succeeds, in descriptor order. -/
def successItems (net : ABMasonryItem → Option (ℕ × ℕ)) (width : JSNum)
    (items : List ABMasonryItem) : List ABMasonryItem :=
  items.filter (fun it => (elementCreate net width it).toOption.isSome)

theorem distribute_foldl_invariant (net : ABMasonryItem → Option (ℕ × ℕ))
    (clientWidth : ℚ) (columns : ℕ) :
    ∀ (items : List ABMasonryItem) (cols : List ABMasonryColumn)
      (log : List ABMasonryElement), 0 < cols.length →
      sumHeights ((List.foldl (distributeStep net clientWidth columns) (cols, log) items).1)
        = jsAdd (sumHeights cols)
            ((successHeights net (columnWidthOf clientWidth columns) items).foldr jsAdd (.fin 0)) ∧
      totalElements ((List.foldl (distributeStep net clientWidth columns) (cols, log) items).1)
        = totalElements cols
            + (successItems net (columnWidthOf clientWidth columns) items).length := by
  intro items
  induction items with
  | nil =>
      intro cols log hpos
      simp [successHeights, successItems, jsAdd_zero_right]
  | cons it rest ih =>
      intro cols log hpos
      rw [List.foldl_cons]
      rcases hcr : elementCreate net (columnWidthOf clientWidth columns) it with err | e
      · have hstep : distributeStep net clientWidth columns (cols, log) it = (cols, log) := by
          simp [distributeStep, hcr]
        rw [hstep]
        have := ih cols log hpos
        simpa [successHeights, successItems, hcr, Except.toOption] using this
      · set k := getShortestColumn (cols.map (·.height)) with hk
        have hklt : k < cols.length := by
          have := getShortestColumn_lt (cols.map (·.height)) (by simpa using hpos)
          simpa using this
        have hstep : distributeStep net clientWidth columns (cols, log) it
            = (appendAt cols k e, log ++ [e]) := by
          simp [distributeStep, hcr]
        rw [hstep]
        have hpos' : 0 < (appendAt cols k e).length := by
          rw [appendAt_length]; exact hpos
        obtain ⟨ih1, ih2⟩ := ih (appendAt cols k e) (log ++ [e]) hpos'
        constructor
        · rw [ih1, sumHeights_appendAt cols k e hklt, jsAdd_assoc]
          simp [successHeights, List.filterMap_cons, hcr, Except.toOption]
        · rw [ih2, totalElements_appendAt cols k e hklt]
          simp [successItems, List.filter_cons, hcr, Except.toOption]
          omega

theorem distribute_foldl_log (net : ABMasonryItem → Option (ℕ × ℕ))
    (clientWidth : ℚ) (columns : ℕ) :
    ∀ (items : List ABMasonryItem) (cols : List ABMasonryColumn)
      (log : List ABMasonryElement),
      (List.foldl (distributeStep net clientWidth columns) (cols, log) items).2
        = log ++ items.filterMap
            (fun it => (elementCreate net (columnWidthOf clientWidth columns) it).toOption) := by
  intro items
  induction items with
  | nil => intro cols log; simp
  | cons it rest ih =>
      intro cols log
      rw [List.foldl_cons]
      rcases hcr : elementCreate net (columnWidthOf clientWidth columns) it with err | e
      · have hstep : distributeStep net clientWidth columns (cols, log) it = (cols, log) := by
          simp [distributeStep, hcr]
        rw [hstep, ih]
        simp [List.filterMap_cons, hcr, Except.toOption]
      · have hstep : distributeStep net clientWidth columns (cols, log) it
            = (appendAt cols (getShortestColumn (cols.map (·.height))) e, log ++ [e]) := by
          simp [distributeStep, hcr]
        rw [hstep, ih]
        simp [List.filterMap_cons, hcr, Except.toOption]

/-- C1: for every gallery with at least one column (all column heights
being finite numbers), whenever an element is successfully loaded during
item distribution, it is appended to the column whose accumulated height
is minimal among all columns at that moment, and on a tie the column
with the lowest index is chosen: the chosen index attains the minimum
and every column with a smaller index has a strictly larger height. -/
theorem c1_success_appends_to_first_shortest_column
    (net : ABMasonryItem → Option (ℕ × ℕ)) (clientWidth : ℚ) (columns : ℕ)
    (cols : List ABMasonryColumn) (log : List ABMasonryElement)
    (item : ABMasonryItem) (e : ABMasonryElement) (qs : List ℚ)
    (hpos : 0 < cols.length)
    (hfin : cols.map (·.height) = qs.map JSNum.fin)
    (hok : elementCreate net (columnWidthOf clientWidth columns) item = .ok e) :
    distributeStep net clientWidth columns (cols, log) item
      = (appendAt cols (getShortestColumn (cols.map (·.height))) e, log ++ [e]) ∧
    getShortestColumn (cols.map (·.height)) < cols.length ∧
    (∀ j, j < cols.length →
      qs.getD (getShortestColumn (cols.map (·.height))) 0 ≤ qs.getD j 0) ∧
    (∀ j, j < getShortestColumn (cols.map (·.height)) →
      qs.getD (getShortestColumn (cols.map (·.height))) 0 < qs.getD j 0) := by
  have hlen : cols.length = qs.length := by
    have := congrArg List.length hfin
    simpa using this
  have hq : 0 < qs.length := by omega
  have hspec := getShortestColumn_spec qs hq
  rw [hfin]
  refine ⟨by simp [distributeStep, hok, hfin], ?_, ?_, hspec.2.2⟩
  · rw [hlen]; exact hspec.1
  · intro j hj
    exact hspec.2.1 j (by omega)

/-- Witness for C1: three columns of heights 100, 50 and 50; the loaded
element goes to the shortest-column index, which attains the minimum and
is the lowest such index (namely index 1). -/
theorem c1_success_appends_to_first_shortest_column_witness :
    distributeStep (fun _ => some (1, 1)) 0 3
        ([⟨[], .fin 100⟩, ⟨[], .fin 50⟩, ⟨[], .fin 50⟩], [])
        ⟨"/d.jpg", none, none, none⟩
      = (appendAt [⟨[], .fin 100⟩, ⟨[], .fin 50⟩, ⟨[], .fin 50⟩]
          (getShortestColumn [JSNum.fin 100, .fin 50, .fin 50])
          ⟨⟨"/d.jpg", none, none, none⟩,
           calculateProportionalSize (.fin 1) (.fin 1) (columnWidthOf 0 3) .h⟩,
         [⟨⟨"/d.jpg", none, none, none⟩,
           calculateProportionalSize (.fin 1) (.fin 1) (columnWidthOf 0 3) .h⟩]) ∧
    getShortestColumn [JSNum.fin 100, .fin 50, .fin 50] < 3 ∧
    (∀ j, j < 3 →
      ([100, 50, 50] : List ℚ).getD (getShortestColumn [JSNum.fin 100, .fin 50, .fin 50]) 0
        ≤ ([100, 50, 50] : List ℚ).getD j 0) ∧
    (∀ j, j < getShortestColumn [JSNum.fin 100, .fin 50, .fin 50] →
      ([100, 50, 50] : List ℚ).getD (getShortestColumn [JSNum.fin 100, .fin 50, .fin 50]) 0
        < ([100, 50, 50] : List ℚ).getD j 0) := by
  have h := c1_success_appends_to_first_shortest_column (fun _ => some (1, 1)) 0 3
    [⟨[], .fin 100⟩, ⟨[], .fin 50⟩, ⟨[], .fin 50⟩] [] ⟨"/d.jpg", none, none, none⟩
    ⟨⟨"/d.jpg", none, none, none⟩,
      calculateProportionalSize (.fin 1) (.fin 1) (columnWidthOf 0 3) .h⟩
    [100, 50, 50] (by decide) rfl
    (by simp [elementCreate, show validateImgUrl "/d.jpg" = true from by decide])
  simpa using h

/-- C2: for every list of items and every column count K at least 1,
after the build completes the sum of the accumulated heights of the K
columns equals the sum of the computed heights of exactly the items
whose element creation succeeded, and the number of placed elements
equals the number of such items; failed items contribute to no column. -/
theorem c2_total_height_equals_successful_heights
    (net : ABMasonryItem → Option (ℕ × ℕ)) (clientWidth : ℚ) (K : ℕ)
    (items : List ABMasonryItem) (hK : 1 ≤ K) :
    sumHeights ((distributeItems net clientWidth K items (createColumns K)).1)
      = (successHeights net (columnWidthOf clientWidth K) items).foldr jsAdd (.fin 0) ∧
    totalElements ((distributeItems net clientWidth K items (createColumns K)).1)
      = (successItems net (columnWidthOf clientWidth K) items).length := by
  have hpos : 0 < (createColumns K).length := by
    simp [createColumns]
    omega
  obtain ⟨h1, h2⟩ := distribute_foldl_invariant net clientWidth K items (createColumns K) [] hpos
  constructor
  · rw [distributeItems, h1, sumHeights_createColumns, jsAdd_zero_left]
  · rw [distributeItems, h2, totalElements_createColumns]
    omega

/-- Witness for C2: one column, one item that loads successfully and one
invalid item; the accumulated heights sum to the single successful
height and exactly one element is placed. -/
theorem c2_total_height_equals_successful_heights_witness :
    1 ≤ 1 ∧
    (sumHeights ((distributeItems (fun _ => some (2, 1)) 0 1
        [⟨"/a.jpg", none, none, none⟩, ⟨"bad.jpg", none, none, none⟩]
        (createColumns 1)).1)
      = (successHeights (fun _ => some (2, 1)) (columnWidthOf 0 1)
          [⟨"/a.jpg", none, none, none⟩, ⟨"bad.jpg", none, none, none⟩]).foldr jsAdd (.fin 0) ∧
    totalElements ((distributeItems (fun _ => some (2, 1)) 0 1
        [⟨"/a.jpg", none, none, none⟩, ⟨"bad.jpg", none, none, none⟩]
        (createColumns 1)).1)
      = (successItems (fun _ => some (2, 1)) (columnWidthOf 0 1)
          [⟨"/a.jpg", none, none, none⟩, ⟨"bad.jpg", none, none, none⟩]).length) :=
  ⟨le_refl 1,
   c2_total_height_equals_successful_heights (fun _ => some (2, 1)) 0 1
     [⟨"/a.jpg", none, none, none⟩, ⟨"bad.jpg", none, none, none⟩] (le_refl 1)⟩

/-- C3: an item whose image source fails validation is rejected with the
invalid-item error by every image-loading oracle — the image resource is
never fetched, the result being independent of the oracle — it changes
no column, and distributing a batch containing it gives the same result
as distributing the batch without it. -/
theorem c3_invalid_item_never_fetched_and_skipped
    (item : ABMasonryItem) (hbad : validateImgUrl item.img = false) :
    (∀ (net : ABMasonryItem → Option (ℕ × ℕ)) (width : JSNum),
      elementCreate net width item = .error .invalidItem) ∧
    (∀ (net : ABMasonryItem → Option (ℕ × ℕ)) (clientWidth : ℚ) (columns : ℕ)
      (state : List ABMasonryColumn × List ABMasonryElement),
      distributeStep net clientWidth columns state item = state) ∧
    (∀ (net : ABMasonryItem → Option (ℕ × ℕ)) (clientWidth : ℚ) (columns : ℕ)
      (cols : List ABMasonryColumn) (pre post : List ABMasonryItem),
      distributeItems net clientWidth columns (pre ++ item :: post) cols
        = distributeItems net clientWidth columns (pre ++ post) cols) := by
  refine ⟨fun net width => by simp [elementCreate, hbad],
          fun net cw columns state => by simp [distributeStep, elementCreate, hbad],
          fun net cw columns cols pre post => ?_⟩
  rw [distributeItems, distributeItems, List.foldl_append, List.foldl_append,
    List.foldl_cons]
  congr 1
  simp [distributeStep, elementCreate, hbad]

/-- Witness for C3: the item with image source invalid.jpg (no scheme,
no leading slash) from the specification examples. -/
theorem c3_invalid_item_never_fetched_and_skipped_witness :
    (∀ (net : ABMasonryItem → Option (ℕ × ℕ)) (width : JSNum),
      elementCreate net width ⟨"invalid.jpg", none, none, none⟩ = .error .invalidItem) ∧
    (∀ (net : ABMasonryItem → Option (ℕ × ℕ)) (clientWidth : ℚ) (columns : ℕ)
      (state : List ABMasonryColumn × List ABMasonryElement),
      distributeStep net clientWidth columns state ⟨"invalid.jpg", none, none, none⟩ = state) ∧
    (∀ (net : ABMasonryItem → Option (ℕ × ℕ)) (clientWidth : ℚ) (columns : ℕ)
      (cols : List ABMasonryColumn) (pre post : List ABMasonryItem),
      distributeItems net clientWidth columns (pre ++ ⟨"invalid.jpg", none, none, none⟩ :: post) cols
        = distributeItems net clientWidth columns (pre ++ post) cols) :=
  c3_invalid_item_never_fetched_and_skipped ⟨"invalid.jpg", none, none, none⟩ (by decide)

/-- Counterexample to C4: the proportional-sizing function of the
current pipeline does not return 0 whenever a natural dimension is 0 —
with naturalWidth 1, naturalHeight 0, target 100 and the width axis it
returns Infinity (in JavaScript, `Math.round((1 / 0) * 100)`). -/
theorem c4_zero_dimension_counterexample :
    calculateProportionalSize (.fin 1) (.fin 0) (.fin 100) .w ≠ .fin 0 ∧
    calculateProportionalSize (.fin 1) (.fin 0) (.fin 100) .w = .posInf := by
  have h : calculateProportionalSize (.fin 1) (.fin 0) (.fin 100) .w = .posInf := by
    norm_num [calculateProportionalSize, jsDiv, jsMul, jsRoundNum]
  exact ⟨by rw [h]; simp, h⟩

/-- C4 amended: the legacy getProportionSize returns 0 whenever either
natural dimension is 0, for every base and both axes; the current
calculateProportionalSize instead returns 0 only when the numerator
dimension of its ratio is 0 and the other dimension is not — when the
denominator dimension is 0 it returns Infinity (for a positive target),
and when both dimensions are 0 it returns NaN; in no case does it raise
an error. -/
theorem c4_zero_dimension_amended
    (ow oh base : ℚ) (ax : ABAxis) (q t : ℚ)
    (hzero : ow = 0 ∨ oh = 0) (hq : 0 < q) (ht : 0 < t) :
    getProportionSize ow oh base ax = 0 ∧
    calculateProportionalSize (.fin 0) (.fin q) (.fin t) .w = .fin 0 ∧
    calculateProportionalSize (.fin q) (.fin 0) (.fin t) .h = .fin 0 ∧
    calculateProportionalSize (.fin q) (.fin 0) (.fin t) .w = .posInf ∧
    calculateProportionalSize (.fin 0) (.fin q) (.fin t) .h = .posInf ∧
    (∀ target : JSNum, calculateProportionalSize (.fin 0) (.fin 0) target ax = .nan) := by
  have hq' : q ≠ 0 := ne_of_gt hq
  refine ⟨by simp [getProportionSize, hzero], ?_, ?_, ?_, ?_, ?_⟩
  · simp [calculateProportionalSize, jsDiv, jsMul, jsRoundNum, hq', jsRound]
    norm_num
  · simp [calculateProportionalSize, jsDiv, jsMul, jsRoundNum, hq', jsRound]
    norm_num
  · simp [calculateProportionalSize, jsDiv, jsMul, jsRoundNum, hq, ht]
  · simp [calculateProportionalSize, jsDiv, jsMul, jsRoundNum, hq, ht]
  · intro target
    cases ax <;> cases target <;>
      simp [calculateProportionalSize, jsDiv, jsMul, jsRoundNum]

/-- Witness for C4 amended at naturalWidth 0, naturalHeight 5, base 7,
width axis, q = 3, t = 2. -/
theorem c4_zero_dimension_amended_witness :
    ((0 : ℚ) = 0 ∨ (5 : ℚ) = 0) ∧ (0 : ℚ) < 3 ∧ (0 : ℚ) < 2 ∧
    (getProportionSize 0 5 7 .w = 0 ∧
     calculateProportionalSize (.fin 0) (.fin 3) (.fin 2) .w = .fin 0 ∧
     calculateProportionalSize (.fin 3) (.fin 0) (.fin 2) .h = .fin 0 ∧
     calculateProportionalSize (.fin 3) (.fin 0) (.fin 2) .w = .posInf ∧
     calculateProportionalSize (.fin 0) (.fin 3) (.fin 2) .h = .posInf ∧
     (∀ target : JSNum, calculateProportionalSize (.fin 0) (.fin 0) target .w = .nan)) :=
  ⟨Or.inl rfl, by norm_num, by norm_num,
   c4_zero_dimension_amended 0 5 7 .w 3 2 (Or.inl rfl) (by norm_num) (by norm_num)⟩

/-- Counterexample to C5: with naturalWidth 600, naturalHeight 300 and
target 300 on the width axis, the legacy getProportionSize returns the
target 300 unchanged, while the claimed formula
round(target * naturalWidth / naturalHeight) gives 600. -/
theorem c5_width_formula_counterexample :
    getProportionSize 600 300 300 .w = 300 ∧
    (jsRound ((300 : ℚ) * 600 / 300) : ℚ) = 600 ∧
    getProportionSize 600 300 300 .w ≠ (jsRound ((300 : ℚ) * 600 / 300) : ℚ) := by
  refine ⟨?_, ?_, ?_⟩ <;> norm_num [getProportionSize, jsRound]

/-- C5 amended: for positive natural dimensions, the current
calculateProportionalSize returns round(target * naturalWidth /
naturalHeight) on the width axis and round(target * naturalHeight /
naturalWidth) on the height axis; the legacy getProportionSize satisfies
the height-axis formula but on the width axis returns the target (base)
unchanged. -/
theorem c5_proportional_formula_amended (nw nh t : ℚ) (hw : 0 < nw) (hh : 0 < nh) :
    calculateProportionalSize (.fin nw) (.fin nh) (.fin t) .w
      = .fin (jsRound (t * nw / nh)) ∧
    calculateProportionalSize (.fin nw) (.fin nh) (.fin t) .h
      = .fin (jsRound (t * nh / nw)) ∧
    getProportionSize nw nh t .h = (jsRound (t * nh / nw) : ℚ) ∧
    getProportionSize nw nh t .w = t := by
  have hw' : nw ≠ 0 := ne_of_gt hw
  have hh' : nh ≠ 0 := ne_of_gt hh
  refine ⟨?_, ?_, ?_, ?_⟩
  · simp only [calculateProportionalSize, jsDiv, jsMul, jsRoundNum, if_neg hh']
    have : nw / nh * t = t * nw / nh := by field_simp; ring
    rw [this]
  · simp only [calculateProportionalSize, jsDiv, jsMul, jsRoundNum, if_neg hw']
    have : nh / nw * t = t * nh / nw := by field_simp; ring
    rw [this]
  · have : t / (nw / nh) = t * nh / nw := by field_simp
    simp [getProportionSize, hw', hh', this]
  · simp [getProportionSize, hw', hh']

/-- Witness for C5 amended at naturalWidth 600, naturalHeight 300,
target 300: the current function gives round(300 * 600 / 300) = 600 on
the width axis, while the legacy one returns 300. -/
theorem c5_proportional_formula_amended_witness :
    (0 : ℚ) < 600 ∧ (0 : ℚ) < 300 ∧
    (calculateProportionalSize (.fin 600) (.fin 300) (.fin 300) .w
       = .fin (jsRound ((300 : ℚ) * 600 / 300)) ∧
     calculateProportionalSize (.fin 600) (.fin 300) (.fin 300) .h
       = .fin (jsRound ((300 : ℚ) * 300 / 600)) ∧
     getProportionSize 600 300 300 .h = (jsRound ((300 : ℚ) * 300 / 600) : ℚ) ∧
     getProportionSize 600 300 300 .w = 300) :=
  ⟨by norm_num, by norm_num,
   c5_proportional_formula_amended 600 300 300 (by norm_num) (by norm_num)⟩

/-- Counterexample to C6: showing a second item without hiding first
does not clear the previous modal content — the modal after two shows
differs from the modal produced by showing the second item alone, so
stale content from the first item is still present. -/
theorem c6_show_does_not_clear_counterexample :
    (showOverlay (fun _ => false)
        (showOverlay (fun _ => false) (overlayInit 2147483647)
          ⟨"/a.jpg", none, none, none⟩)
        ⟨"/b.jpg", none, none, none⟩).modal
      ≠ (showOverlay (fun _ => false) (overlayInit 2147483647)
          ⟨"/b.jpg", none, none, none⟩).modal ∧
    (showOverlay (fun _ => false)
        (showOverlay (fun _ => false) (overlayInit 2147483647)
          ⟨"/a.jpg", none, none, none⟩)
        ⟨"/b.jpg", none, none, none⟩).modal
      = [.image "/a.jpg" "ab-masonry", .image "/b.jpg" "ab-masonry"] := by
  constructor <;> decide

/-- C6 amended: show(item) appends the content of the item to the modal
— it does not clear the previous content, so consecutive shows without
an intervening hide accumulate content — and sets the visibility flag to
Visible in the same call; previous modal content is cleared only by
hide(), which empties the modal and resets visibility. -/
theorem c6_show_appends_and_sets_visible_amended
    (parses : String → Bool) (o : ABMasonryOverlay) (item : ABMasonryItem) :
    (showOverlay parses o item).visible = true ∧
    (∃ newNodes, newNodes ≠ [] ∧
      (showOverlay parses o item).modal = o.modal ++ newNodes) ∧
    (hideOverlay o).modal = [] ∧ (hideOverlay o).visible = false := by
  refine ⟨rfl, ?_, rfl, rfl⟩
  simp only [showOverlay, updateModal, setImage, setCaption]
  rcases item.caption with _ | c
  · exact ⟨[.image item.img (item.title.getD "ab-masonry")], by simp, by simp⟩
  · by_cases hc : c = ""
    · subst hc
      exact ⟨[.image item.img (item.title.getD ((some "").getD "ab-masonry"))],
        by simp, by simp⟩
    · by_cases hv : validUrl parses item.link
      · exact ⟨[.image item.img (item.title.getD ((some c).getD "ab-masonry")),
          .captionLink (item.link.getD "") c "_blank" "noopener noreferrer"],
          by simp, by simp [hc, hv]⟩
      · exact ⟨[.image item.img (item.title.getD ((some c).getD "ab-masonry")),
          .captionText c], by simp, by simp [hc, hv]⟩

/-- Counterexample to C7: two items that both load successfully, with
completion times making the second item finish first (time 10 for the
first item, time 1 for the second).  The placement log of
distributeItems still follows descriptor order, not the completion
order claimed by the specification: the code awaits each image before
starting the next, so completions cannot overtake descriptor order. -/
theorem c7_completion_order_counterexample :
    ((distributeItems (fun _ => some (1, 1)) 0 1
        [⟨"/a.jpg", none, none, none⟩, ⟨"/b.jpg", none, none, none⟩]
        (createColumns 1)).2.map (·.item))
      = [⟨"/a.jpg", none, none, none⟩, ⟨"/b.jpg", none, none, none⟩] ∧
    specCompletionOrderPlacements
        (fun it => if it.img = "/a.jpg" then 10 else 1)
        (fun _ => some (1, 1)) (columnWidthOf 0 1)
        [⟨"/a.jpg", none, none, none⟩, ⟨"/b.jpg", none, none, none⟩]
      = [⟨"/b.jpg", none, none, none⟩, ⟨"/a.jpg", none, none, none⟩] ∧
    ((distributeItems (fun _ => some (1, 1)) 0 1
        [⟨"/a.jpg", none, none, none⟩, ⟨"/b.jpg", none, none, none⟩]
        (createColumns 1)).2.map (·.item))
      ≠ specCompletionOrderPlacements
          (fun it => if it.img = "/a.jpg" then 10 else 1)
          (fun _ => some (1, 1)) (columnWidthOf 0 1)
          [⟨"/a.jpg", none, none, none⟩, ⟨"/b.jpg", none, none, none⟩] := by
  have hva : validateImgUrl "/a.jpg" = true := by decide
  have hvb : validateImgUrl "/b.jpg" = true := by decide
  have hne : ("/b.jpg" : String) ≠ "/a.jpg" := by decide
  have h1 : ((distributeItems (fun _ => some (1, 1)) 0 1
        [⟨"/a.jpg", none, none, none⟩, ⟨"/b.jpg", none, none, none⟩]
        (createColumns 1)).2.map (·.item))
      = [⟨"/a.jpg", none, none, none⟩, ⟨"/b.jpg", none, none, none⟩] := by
    rw [distributeItems, distribute_foldl_log]
    simp [elementCreate, hva, hvb, Except.toOption]
  have h2 : specCompletionOrderPlacements
        (fun it => if it.img = "/a.jpg" then 10 else 1)
        (fun _ => some (1, 1)) (columnWidthOf 0 1)
        [⟨"/a.jpg", none, none, none⟩, ⟨"/b.jpg", none, none, none⟩]
      = [⟨"/b.jpg", none, none, none⟩, ⟨"/a.jpg", none, none, none⟩] := by
    simp [specCompletionOrderPlacements, insertByTime, elementCreate, hva, hvb,
      Except.toOption, hne]
  refine ⟨h1, h2, ?_⟩
  rw [h1, h2]
  simp [hne.symm]

/-- C7 amended: distributeItems awaits each image resolution before
starting the next, so the loads are issued sequentially (an effective
concurrency cap of one) and the placement log equals the successfully
created elements in descriptor order, for every image-loading oracle. -/
theorem c7_sequential_descriptor_order_amended
    (net : ABMasonryItem → Option (ℕ × ℕ)) (clientWidth : ℚ) (columns : ℕ)
    (items : List ABMasonryItem) (cols : List ABMasonryColumn) :
    (distributeItems net clientWidth columns items cols).2
      = items.filterMap
          (fun it => (elementCreate net (columnWidthOf clientWidth columns) it).toOption) := by
  rw [distributeItems, distribute_foldl_log]
  simp

/-- C8: for every shown item with a defined non-empty caption, the modal
receives the image followed by one caption node: an anchor carrying the
link with target _blank and rel noopener noreferrer when validUrl
accepts the link (the link is present, non-empty and parses as an
absolute URL), and plain text otherwise; an absent link never validates,
and no case raises an error (showOverlay is total). -/
theorem c8_caption_link_validation
    (parses : String → Bool) (o : ABMasonryOverlay) (item : ABMasonryItem)
    (c : String) (hc : item.caption = some c) (hne : c ≠ "") :
    (showOverlay parses o item).modal
      = o.modal ++ [.image item.img (item.title.getD c),
          if validUrl parses item.link then
            ModalNode.captionLink (item.link.getD "") c "_blank" "noopener noreferrer"
          else ModalNode.captionText c] ∧
    validUrl parses none = false := by
  refine ⟨?_, rfl⟩
  by_cases hv : validUrl parses item.link <;>
    simp [showOverlay, updateModal, setImage, setCaption, hc, hne, hv]

/-- Witness for C8: an item with caption C and a link accepted by the
URL oracle renders the caption as an anchor to that link. -/
theorem c8_caption_link_validation_witness :
    ((⟨"/i.jpg", none, some "C", some "https://x.test"⟩ : ABMasonryItem).caption
        = some "C") ∧ ("C" : String) ≠ "" ∧
    ((showOverlay (fun s => s == "https://x.test") (overlayInit 2147483647)
        ⟨"/i.jpg", none, some "C", some "https://x.test"⟩).modal
      = (overlayInit 2147483647).modal
          ++ [.image "/i.jpg" ((none : Option String).getD "C"),
              if validUrl (fun s => s == "https://x.test") (some "https://x.test") then
                ModalNode.captionLink ((some "https://x.test" : Option String).getD "")
                  "C" "_blank" "noopener noreferrer"
              else ModalNode.captionText "C"] ∧
     validUrl (fun s => s == "https://x.test") none = false) :=
  ⟨rfl, by decide,
   c8_caption_link_validation (fun s => s == "https://x.test") (overlayInit 2147483647)
     ⟨"/i.jpg", none, some "C", some "https://x.test"⟩ "C" rfl (by decide)⟩

/-- Counterexample to C9: for an item with neither title nor caption,
the alt text of the inserted image is the string ab-masonry, not the
string gallery claimed by the specification. -/
theorem c9_alt_fallback_counterexample :
    (showOverlay (fun _ => false) (overlayInit 2147483647)
        ⟨"/x.jpg", none, none, none⟩).modal
      = [.image "/x.jpg" "ab-masonry"] ∧
    (showOverlay (fun _ => false) (overlayInit 2147483647)
        ⟨"/x.jpg", none, none, none⟩).modal
      ≠ [.image "/x.jpg" "gallery"] := by
  constructor <;> decide

/-- C9 amended: for every item shown in the overlay, the inserted image
has source item.img and alt text equal to the title if defined, else the
caption if defined, else the string ab-masonry. -/
theorem c9_alt_fallback_amended
    (parses : String → Bool) (o : ABMasonryOverlay) (item : ABMasonryItem) :
    ∃ rest, (showOverlay parses o item).modal
      = o.modal
          ++ ModalNode.image item.img (item.title.getD (item.caption.getD "ab-masonry"))
            :: rest := by
  simp only [showOverlay, updateModal, setImage, setCaption]
  rcases item.caption with _ | c
  · exact ⟨[], by simp⟩
  · by_cases hc : c = ""
    · subst hc; exact ⟨[], by simp⟩
    · by_cases hv : validUrl parses item.link
      · exact ⟨[.captionLink (item.link.getD "") c "_blank" "noopener noreferrer"],
          by simp [hc, hv]⟩
      · exact ⟨[.captionText c], by simp [hc, hv]⟩

/-- C10: for every item distributed during a build with at least one
configured column, the width passed to element creation is
clientWidth / columns when the container clientWidth is positive and
1024 / columns otherwise, and the created element computes its height
from that width — so with no measurable container width the height is
computed as if the gallery were 1024 pixels wide. -/
theorem c10_column_width_fallback
    (clientWidth : ℚ) (K : ℕ) (net : ABMasonryItem → Option (ℕ × ℕ))
    (item : ABMasonryItem) (nw nh : ℕ)
    (hK : 1 ≤ K) (hnet : net item = some (nw, nh))
    (hvalid : validateImgUrl item.img = true) :
    (0 < clientWidth →
      columnWidthOf clientWidth K = .fin (clientWidth / K) ∧
      elementCreate net (columnWidthOf clientWidth K) item
        = .ok ⟨item, calculateProportionalSize (.fin nw) (.fin nh)
            (.fin (clientWidth / K)) .h⟩) ∧
    (¬ 0 < clientWidth →
      columnWidthOf clientWidth K = .fin (1024 / K) ∧
      elementCreate net (columnWidthOf clientWidth K) item
        = .ok ⟨item, calculateProportionalSize (.fin nw) (.fin nh)
            (.fin (1024 / K)) .h⟩) := by
  have hK0 : ((K : ℚ)) ≠ 0 := by
    simp only [ne_eq, Nat.cast_eq_zero]
    omega
  constructor
  · intro hpos
    have hw : columnWidthOf clientWidth K = .fin (clientWidth / K) := by
      simp [columnWidthOf, hpos, jsDiv, hK0]
    exact ⟨hw, by rw [hw]; simp [elementCreate, hvalid, hnet]⟩
  · intro hneg
    have hw : columnWidthOf clientWidth K = .fin (1024 / K) := by
      simp [columnWidthOf, hneg, jsDiv, hK0]
    exact ⟨hw, by rw [hw]; simp [elementCreate, hvalid, hnet]⟩

/-- Witness for C10: two columns, a container of positive clientWidth
512 giving width 256, and the zero-clientWidth case giving width 512 =
1024 / 2. -/
theorem c10_column_width_fallback_witness :
    1 ≤ 2 ∧
    ((0 : ℚ) < 512 →
      columnWidthOf 512 2 = .fin (512 / 2) ∧
      elementCreate (fun _ => some (4, 3)) (columnWidthOf 512 2)
          ⟨"/w.jpg", none, none, none⟩
        = .ok ⟨⟨"/w.jpg", none, none, none⟩,
            calculateProportionalSize (.fin 4) (.fin 3) (.fin (512 / 2)) .h⟩) ∧
    (¬ (0 : ℚ) < 512 →
      columnWidthOf 512 2 = .fin (1024 / 2) ∧
      elementCreate (fun _ => some (4, 3)) (columnWidthOf 512 2)
          ⟨"/w.jpg", none, none, none⟩
        = .ok ⟨⟨"/w.jpg", none, none, none⟩,
            calculateProportionalSize (.fin 4) (.fin 3) (.fin (1024 / 2)) .h⟩) :=
  ⟨by norm_num,
   (c10_column_width_fallback 512 2 (fun _ => some (4, 3))
     ⟨"/w.jpg", none, none, none⟩ 4 3 (by norm_num) rfl (by decide)).1,
   (c10_column_width_fallback 512 2 (fun _ => some (4, 3))
     ⟨"/w.jpg", none, none, none⟩ 4 3 (by norm_num) rfl (by decide)).2⟩
